import Mathlib

/-!
Verification development for the XBlock sample-plugin repository.

The repository ships a test suite (`xblock/test/test_mixins.py`) for the
XBlock field/mixin framework together with a one-file sample plugin
(`thumbs/setup.py`).  The framework code itself (`xblock.mixins`,
`xblock.fields`) is not part of the source tree, so the framework
behaviour exercised by the tests is modelled here from the specification,
while `thumbs/setup.py` is embedded directly from the source.
-/

namespace XBlockSpec

/-- Modelled from the spec: a field-storage namespace ("Scope: a
field-storage namespace (e.g., settings, content, children) defined by the
host framework"). -/
inductive Scope where
  | content
  | settings
  | children
  | user_state
deriving DecidableEq

/-- Modelled from the spec: a timezone-naive UTC datetime value as carried
by a `DateTime` field (year, month, day, hour, minute, second,
microsecond), the shape serialised by XML export. -/
structure DT where
  year : Nat
  month : Nat
  day : Nat
  hour : Nat
  minute : Nat
  second : Nat
  microsecond : Nat
deriving DecidableEq

/-- Modelled from the spec: a value held by a block field.  `null` stands
for Python `None` on a string-typed field; `dt none` is `None` on a
`DateTime` field. -/
inductive Value where
  | null : Value
  | str : String → Value
  | dt : Option DT → Value
deriving DecidableEq

/-- Modelled from the spec: the declared type of a field (`String`,
`DateTime`, `List` are the ones used by the tests). -/
inductive FieldType where
  | stringT
  | dateTimeT
  | listT
  | integerT
deriving DecidableEq

/-- Modelled from the spec: a field's declared default, either an explicit
value or the `UNIQUE_ID` sentinel ("unique-ID default generation"). -/
inductive FieldDefault where
  | value : Value → FieldDefault
  | uniqueId : FieldDefault
deriving DecidableEq

/-- Modelled from the spec: a declared field of the framework
(`xblock.fields.Field`): declaration identity (`id` models Python object
identity), name, type, scope, default and the `force_export` flag. -/
structure Field where
  id : Nat
  name : String
  ftype : FieldType
  scope : Scope
  default : FieldDefault
  force_export : Bool
deriving DecidableEq

/-- First-match lookup in an association list, as Python dictionary /
XML-attribute read. -/
def lookupA {α : Type} (n : String) : List (String × α) → Option α
  | [] => none
  | (k, v) :: rest => if k = n then some v else lookupA n rest

/-- The ASCII digit character for `d < 10`. -/
def digitChar (d : Nat) : Char := Char.ofNat (48 + d)

/-- Most-significant-first decimal digits of `n`, prepended to `acc`;
`fuel ≥ n` suffices for the recursion. -/
def toDigitsAux : Nat → Nat → List Char → List Char
  | 0, _, acc => acc
  | fuel + 1, n, acc =>
    if n < 10 then digitChar n :: acc
    else toDigitsAux fuel (n / 10) (digitChar (n % 10) :: acc)

/-- Decimal digits of `n` (empty for 0; zero padding supplies the digits). -/
def natChars (n : Nat) : List Char :=
  if n = 0 then [] else toDigitsAux n n []

/-- `n` printed in decimal, left-padded with zeros to width `w`. -/
def padNum (w n : Nat) : List Char :=
  List.replicate (w - (natChars n).length) '0' ++ natChars n

/-- The numeric value of an ASCII digit character, `none` on a non-digit. -/
def charDigit (c : Char) : Option Nat :=
  if 48 ≤ c.toNat ∧ c.toNat ≤ 57 then some (c.toNat - 48) else none

/-- Fold a decimal digit string onto the accumulator `acc`, failing on a
non-digit character. -/
def parseNatAux : List Char → Nat → Option Nat
  | [], acc => some acc
  | c :: cs, acc =>
    match charDigit c with
    | some d => parseNatAux cs (10 * acc + d)
    | none => none

/-- Consume exactly `w` leading characters as a decimal number, returning
it with the remainder of the input. -/
def parseFixed (w : Nat) (l : List Char) : Option (Nat × List Char) :=
  if w ≤ l.length then
    match parseNatAux (l.take w) 0 with
    | some n => some (n, l.drop w)
    | none => none
  else none

/-- Consume one expected character. -/
def expectChar (c : Char) : List Char → Option (List Char)
  | [] => none
  | c2 :: rest => if c2 = c then some rest else none

/-- Modelled from the spec: ISO-format serialisation of a datetime without
timezone suffix, `YYYY-MM-DDTHH:MM:SS.ffffff` (missing
`xblock.fields.DateTime.to_string`). -/
def formatDT (d : DT) : List Char :=
  padNum 4 d.year ++ '-' :: padNum 2 d.month ++ '-' :: padNum 2 d.day ++
    'T' :: padNum 2 d.hour ++ ':' :: padNum 2 d.minute ++ ':' :: padNum 2 d.second ++
    '.' :: padNum 6 d.microsecond

/-- Modelled from the spec: parsing of the ISO-format datetime text written
by `formatDT` (missing `xblock.fields.DateTime.from_string`). -/
def parseDT (l : List Char) : Option DT := do
  let (y, l) ← parseFixed 4 l
  let l ← expectChar '-' l
  let (mo, l) ← parseFixed 2 l
  let l ← expectChar '-' l
  let (d, l) ← parseFixed 2 l
  let l ← expectChar 'T' l
  let (h, l) ← parseFixed 2 l
  let l ← expectChar ':' l
  let (mi, l) ← parseFixed 2 l
  let l ← expectChar ':' l
  let (s, l) ← parseFixed 2 l
  let l ← expectChar '.' l
  let (us, l) ← parseFixed 6 l
  if l = [] then some ⟨y, mo, d, h, mi, s, us⟩ else none

/-- Modelled from the spec: the XML-attribute text of a field value
("XML attribute round-tripping"; a `DateTime` set to `None` exports as the
empty string, a datetime as its ISO text). -/
def valueToString : Value → String
  | Value.null => ""
  | Value.str s => s
  | Value.dt none => ""
  | Value.dt (some d) => ⟨formatDT d⟩

/-- Modelled from the spec: reading a field value back from its
XML-attribute text, driven by the field's declared type ("XML attribute
round-tripping"). -/
def valueFromString (t : FieldType) (s : String) : Option Value :=
  match t with
  | FieldType.stringT => some (Value.str s)
  | FieldType.dateTimeT =>
    if s = "" then some (Value.dt none)
    else (parseDT s.data).map (fun d => Value.dt (some d))
  | FieldType.listT => none
  | FieldType.integerT => none

/-- A value a well-typed export can produce for a field of type `t`:
strings for `String` fields, in-range datetimes (or `None`) for `DateTime`
fields. -/
def wellFormedValue (t : FieldType) (v : Value) : Prop :=
  match t, v with
  | FieldType.stringT, Value.str _ => True
  | FieldType.dateTimeT, Value.dt none => True
  | FieldType.dateTimeT, Value.dt (some d) =>
    d.year < 10 ^ 4 ∧ d.month < 10 ^ 2 ∧ d.day < 10 ^ 2 ∧ d.hour < 10 ^ 2 ∧
      d.minute < 10 ^ 2 ∧ d.second < 10 ^ 2 ∧ d.microsecond < 10 ^ 6
  | _, _ => False

/-- Modelled from the spec: the state of a block instance visible to XML
export: its class's declared fields, the underlying `DictFieldData`
(explicitly set fields only), the class's `entry_point`, and the runtime's
generator for `UNIQUE_ID` defaults ("unique-ID default generation"). -/
structure Block where
  fields : List Field
  field_data : List (String × Value)
  entry_point : String
  uidGen : String → String

/-- Modelled from the spec: `Field.is_set_on` — whether the field has an
explicitly set value on the block (a field merely holding its default is
not set). -/
def Field.is_set_on (f : Field) (b : Block) : Bool :=
  (lookupA f.name b.field_data).isSome

/-- Modelled from the spec: the value the block currently holds for the
field: the set value if any, otherwise the declared default, a `UNIQUE_ID`
default being generated by the runtime. -/
def Field.valueOn (f : Field) (b : Block) : Value :=
  match lookupA f.name b.field_data with
  | some v => v
  | none =>
    match f.default with
    | FieldDefault.value v => v
    | FieldDefault.uniqueId => Value.str (b.uidGen f.name)

/-- The field attributes XML export writes: one attribute per field that is
set on the block or declared with `force_export=True`. -/
def exportAttrs (b : Block) : List Field → List (String × String)
  | [] => []
  | f :: rest =>
    if f.is_set_on b || f.force_export then
      (f.name, valueToString (f.valueOn b)) :: exportAttrs b rest
    else exportAttrs b rest

/-- Modelled from the spec: `XmlSerializationMixin.add_xml_to_node` — the
attributes of the exported XML node: the `xblock-family` attribute holding
the class's `entry_point`, plus one attribute per field that is set on the
block or declared with `force_export=True` ("default value suppression vs
forced export"). -/
def add_xml_to_node (b : Block) : List (String × String) :=
  ("xblock-family", b.entry_point) :: exportAttrs b b.fields

/-- `TestXBlock.field = String()` (no default, not forced). -/
def fieldF : Field := ⟨0, "field", FieldType.stringT, Scope.content, FieldDefault.value Value.null, false⟩

/-- `TestXBlock.simple_default = String(default="default")`. -/
def simpleDefaultF : Field :=
  ⟨1, "simple_default", FieldType.stringT, Scope.content, FieldDefault.value (Value.str "default"), false⟩

/-- `TestXBlock.force_export = String(default="default", force_export=True)`. -/
def forceExportF : Field :=
  ⟨2, "force_export", FieldType.stringT, Scope.content, FieldDefault.value (Value.str "default"), true⟩

/-- `TestXBlock.unique_id_default = String(default=UNIQUE_ID)`. -/
def uniqueIdDefaultF : Field :=
  ⟨3, "unique_id_default", FieldType.stringT, Scope.content, FieldDefault.uniqueId, false⟩

/-- `TestXBlock.unique_id_force_export = String(default=UNIQUE_ID, force_export=True)`. -/
def uniqueIdForceExportF : Field :=
  ⟨4, "unique_id_force_export", FieldType.stringT, Scope.content, FieldDefault.uniqueId, true⟩

/-- The declared fields of `TestXBlock`. -/
def testXBlockFields : List Field :=
  [fieldF, simpleDefaultF, forceExportF, uniqueIdDefaultF, uniqueIdForceExportF]

/-- A fresh `TestXBlock` over empty `DictFieldData({})`, as `_make_block`
builds it; `entry_point` is the XBlock family entry point `xblock.v1`. -/
def freshTestXBlock : Block :=
  ⟨testXBlockFields, [], "xblock.v1", fun n => String.append "uid-" n⟩

/-- The same block after the test sets all five fields. -/
def allSetTestXBlock : Block :=
  ⟨testXBlockFields,
    [("field", Value.str "Value1"), ("simple_default", Value.str "Value2"),
      ("force_export", Value.str "Value3"), ("unique_id_default", Value.str "Value4"),
      ("unique_id_force_export", Value.str "Value5")],
    "xblock.v1", fun n => String.append "uid-" n⟩

/-- `TestXBlockWithDateTime.datetime = DateTime(default=None)`. -/
def datetimeF : Field :=
  ⟨5, "datetime", FieldType.dateTimeT, Scope.content, FieldDefault.value (Value.dt none), false⟩

/-- A `TestXBlockWithDateTime` block whose `datetime` field has been set to `v`. -/
def dateTimeBlock (v : Value) : Block :=
  ⟨[datetimeF], [("datetime", v)], "xblock.v1", fun n => String.append "uid-" n⟩

/-- Modelled from the spec: the `children` field the children metaclass
attaches (missing `xblock.mixins.HierarchyMixin`): a `List` field whose
scope is `Scope.children`. -/
def childrenField : Field :=
  ⟨100, "children", FieldType.listT, Scope.children, FieldDefault.value Value.null, false⟩

/-- Modelled from the spec: a class in a `HierarchyMixin` hierarchy, after
metaclass processing: its resolved `has_children` flag and its `children`
attribute, if any. -/
structure HClass where
  has_children : Bool
  children : Option Field

/-- `HierarchyMixin` itself: `has_children = False`, no `children`. -/
def hierarchyRoot : HClass := ⟨false, none⟩

/-- Modelled from the spec: subclass creation under the children
metaclass: the body may set `has_children` (otherwise it is inherited from
the parent), and the metaclass attaches the `children` field exactly when
the resolved `has_children` is true. -/
def mkHClass (parent : HClass) (body : Option Bool) : HClass :=
  let hc := body.getD parent.has_children
  ⟨hc, if hc then some childrenField else none⟩

/-- A subclass chain below `HierarchyMixin`, most-derived body first. -/
def buildHClass : List (Option Bool) → HClass
  | [] => hierarchyRoot
  | b :: rest => mkHClass (buildHClass rest) b

/-- Modelled from the spec: a class in a `ScopedStorageMixin` hierarchy
("metaclass-driven attribute composition"), represented by its
method-resolution order: one entry per class body, most derived first,
each holding the fields that body declares.  `Field.id` models Python
object identity of the declared field objects. -/
structure PyClass where
  lin : List (List (String × Field))

/-- Class creation: the new body followed by the linearisations of the
bases, left to right. -/
def mkClass (body : List (String × Field)) (bases : List PyClass) : PyClass :=
  ⟨body :: (bases.map PyClass.lin).flatten⟩

/-- Python class-attribute lookup along the MRO: the first declaring class
wins. -/
def getattrFields (n : String) : List (List (String × Field)) → Option Field
  | [] => none
  | body :: rest =>
    match lookupA n body with
    | some f => some f
    | none => getattrFields n rest

/-- The field bound to the class attribute `n`, resolved along the MRO. -/
def getattr (c : PyClass) (n : String) : Option Field :=
  getattrFields n c.lin

/-- Dict update `m[k] = v`. -/
def insertA (m : List (String × Field)) (k : String) (v : Field) : List (String × Field) :=
  (k, v) :: m.filter (fun kv => kv.1 != k)

/-- Add every field of one class body to the accumulated dict. -/
def insertAll (m : List (String × Field)) (body : List (String × Field)) :
    List (String × Field) :=
  body.foldl (fun acc kv => insertA acc kv.1 kv.2) m

/-- Modelled from the spec: the metaclass-computed class-level `fields`
dictionary (missing `xblock.mixins.ScopedStorageMixin`): walk the MRO from
least to most derived and add each body's declared fields, more derived
declarations overriding less derived ones. -/
def fieldsDict (c : PyClass) : List (String × Field) :=
  c.lin.reverse.foldl insertAll []

/-- First-of-two option choice (`or` on lookups). -/
def orO {α : Type} : Option α → Option α → Option α
  | some v, _ => some v
  | none, o => o

/-- The test fixture fields `field_a`, `field_b`, `field_c`
(`Integer(scope=Scope.settings/content)`). -/
def field_a : Field :=
  ⟨20, "field_a", FieldType.integerT, Scope.settings, FieldDefault.value Value.null, false⟩

def field_b : Field :=
  ⟨21, "field_b", FieldType.integerT, Scope.content, FieldDefault.value Value.null, false⟩

def field_c : Field :=
  ⟨22, "field_c", FieldType.integerT, Scope.settings, FieldDefault.value Value.null, false⟩

/-- `ScopedStorageMixinTester(ScopedStorageMixin)` declaring `field_a`, `field_b`. -/
def scopedStorageMixinTesterC : PyClass :=
  mkClass [("field_a", field_a), ("field_b", field_b)] []

/-- `FieldsMixin(object)` declaring `field_c`. -/
def fieldsMixinC : PyClass := mkClass [("field_c", field_c)] []

/-- `MixinChildClass(FieldsMixin, ScopedStorageMixinTester)`. -/
def mixinChildClassC : PyClass := mkClass [] [fieldsMixinC, scopedStorageMixinTesterC]

/-- `MixinGrandchildClass(MixinChildClass)`. -/
def mixinGrandchildClassC : PyClass := mkClass [] [mixinChildClassC]

/-- Modelled from the spec: a class using `IndexInfoMixin` (missing
`xblock.mixins.IndexInfoMixin`), which may override the mixin's
`index_dictionary` with indexing behaviour of its own. -/
structure IndexClass where
  index_override : Option (Block → List (String × String))

/-- Modelled from the spec: the `index_dictionary` method resolved on the
class: an override if the class supplies one, otherwise the mixin's
implementation, which returns an empty dict. -/
def index_dictionary (c : IndexClass) (self : Block) : List (String × String) :=
  match c.index_override with
  | some f => f self
  | none => []

/-- `IndexInfoMixinTester(IndexInfoMixin)`, adding no indexing behaviour. -/
def indexInfoMixinTesterC : IndexClass := ⟨none⟩

/-- One plugin entry point `name = module:object`. -/
structure EntryPoint where
  name : String
  target_module : String
  target_object : String
deriving DecidableEq

/-- A `setuptools.setup` declaration, as `thumbs/setup.py` makes it. -/
structure SetupDecl where
  name : String
  version : String
  description : String
  py_modules : List String
  install_requires : List String
  entry_points : List (String × List EntryPoint)

/-- The `setup(...)` call of `thumbs/setup.py`. -/
def thumbs_setup : SetupDecl :=
  ⟨"thumbs-xblock", "0.1", "Thumbs XBlock Sample", ["thumbs"], ["XBlock"],
    [("xblock.v1", [⟨"thumbs", "thumbs.thumbs", "ThumbsBlock"⟩])]⟩

/-! ### Theorems -/

theorem lookupA_nil {α : Type} (n : String) : lookupA (α := α) n [] = none := rfl

theorem lookupA_cons {α : Type} (n k : String) (v : α) (rest : List (String × α)) :
    lookupA n ((k, v) :: rest) = if k = n then some v else lookupA n rest := rfl

theorem lookupA_exportAttrs_not_mem (b : Block) (n : String) (fs : List Field)
    (h : n ∉ fs.map Field.name) : lookupA n (exportAttrs b fs) = none := by
  induction fs with
  | nil => rfl
  | cons f rest ih =>
    simp only [List.map_cons, List.mem_cons, not_or] at h
    rw [exportAttrs]
    by_cases hc : (f.is_set_on b || f.force_export) = true
    · rw [if_pos hc, lookupA_cons, if_neg (fun he => h.1 he.symm), ih h.2]
    · rw [if_neg hc, ih h.2]

theorem lookupA_exportAttrs (b : Block) (f : Field) (fs : List Field)
    (hmem : f ∈ fs) (hnd : (fs.map Field.name).Nodup) :
    lookupA f.name (exportAttrs b fs) =
      if f.is_set_on b || f.force_export then some (valueToString (f.valueOn b)) else none := by
  induction fs with
  | nil => cases hmem
  | cons g rest ih =>
    simp only [List.map_cons, List.nodup_cons] at hnd
    rcases List.mem_cons.mp hmem with heq | hmem2
    · subst heq
      rw [exportAttrs]
      by_cases hc : (f.is_set_on b || f.force_export) = true
      · rw [if_pos hc, if_pos hc, lookupA_cons, if_pos rfl]
      · rw [if_neg hc, if_neg hc, lookupA_exportAttrs_not_mem b f.name rest hnd.1]
    · have hne : g.name ≠ f.name := by
        intro he
        apply hnd.1
        rw [he]
        exact List.mem_map_of_mem Field.name hmem2
      rw [exportAttrs]
      by_cases hc2 : (g.is_set_on b || g.force_export) = true
      · rw [if_pos hc2, lookupA_cons, if_neg hne, ih hmem2 hnd.2]
      · rw [if_neg hc2, ih hmem2 hnd.2]

/-- A field-name attribute of the exported node, skipping the
`xblock-family` attribute. -/
theorem lookupA_add_xml (b : Block) (f : Field) (hname : f.name ≠ "xblock-family")
    (hmem : f ∈ b.fields) (hnd : (b.fields.map Field.name).Nodup) :
    lookupA f.name (add_xml_to_node b) =
      if f.is_set_on b || f.force_export then some (valueToString (f.valueOn b)) else none := by
  rw [add_xml_to_node, lookupA_cons, if_neg (fun he => hname he.symm)]
  exact lookupA_exportAttrs b f b.fields hmem hnd

/-- C1: for every block, `add_xml_to_node` writes a field's value as an
attribute of the target node iff the field is set on the block or was
declared with `force_export=True`; a field merely holding its non-forced
default is suppressed; and every field with a set value appears in the
node with that set value. -/
theorem add_xml_iff_set_or_forced (b : Block) (f : Field)
    (hmem : f ∈ b.fields) (hnd : (b.fields.map Field.name).Nodup)
    (hname : f.name ≠ "xblock-family") :
    ((lookupA f.name (add_xml_to_node b)).isSome ↔ (f.is_set_on b || f.force_export) = true) ∧
    (f.is_set_on b = false → f.force_export = false →
      lookupA f.name (add_xml_to_node b) = none) ∧
    (∀ v, lookupA f.name b.field_data = some v →
      lookupA f.name (add_xml_to_node b) = some (valueToString v)) := by
  rw [lookupA_add_xml b f hname hmem hnd]
  refine ⟨?_, ?_, ?_⟩
  · by_cases hc : (f.is_set_on b || f.force_export) = true
    · rw [if_pos hc]
      simp [hc]
    · rw [if_neg hc]
      simp [hc]
  · intro h1 h2
    rw [if_neg]
    rw [h1, h2]
    simp
  · intro v hv
    have hset : f.is_set_on b = true := by
      rw [Field.is_set_on, hv]
      rfl
    have hval : f.valueOn b = v := by
      rw [Field.valueOn, hv]
    rw [hval, if_pos]
    rw [hset, Bool.true_or]

/-- C1 witness: on the test block with every field set, the `field`
attribute is present and holds the set value `Value1`. -/
theorem add_xml_iff_set_or_forced_witness :
    lookupA "field" (add_xml_to_node allSetTestXBlock) = some "Value1" :=
  (add_xml_iff_set_or_forced allSetTestXBlock fieldF (by decide) (by decide)
    (by decide)).2.2 (Value.str "Value1") (by decide)

/-- C2: on a block with no field set, a `UNIQUE_ID`-default field with
`force_export=True` is exported with the generated id as its attribute
value, while a `UNIQUE_ID`-default field without `force_export` produces no
attribute at all. -/
theorem unique_id_default_export (b : Block) (f : Field)
    (hdata : b.field_data = []) (hmem : f ∈ b.fields)
    (hnd : (b.fields.map Field.name).Nodup) (hname : f.name ≠ "xblock-family")
    (hdef : f.default = FieldDefault.uniqueId) :
    (f.force_export = true →
      lookupA f.name (add_xml_to_node b) = some (b.uidGen f.name)) ∧
    (f.force_export = false → lookupA f.name (add_xml_to_node b) = none) := by
  have hset : f.is_set_on b = false := by
    rw [Field.is_set_on, hdata, lookupA_nil]
    rfl
  rw [lookupA_add_xml b f hname hmem hnd]
  constructor
  · intro hf
    rw [if_pos (by rw [hset, hf]; rfl)]
    rw [Field.valueOn, hdata, lookupA_nil, hdef]
    rfl
  · intro hf
    rw [if_neg]
    rw [hset, hf]
    simp

/-- C2 witness: on the fresh test block, `unique_id_force_export` is
exported with the generated id while `unique_id_default` is absent. -/
theorem unique_id_default_export_witness :
    lookupA "unique_id_force_export" (add_xml_to_node freshTestXBlock) =
        some "uid-unique_id_force_export" ∧
    lookupA "unique_id_default" (add_xml_to_node freshTestXBlock) = none :=
  ⟨(unique_id_default_export freshTestXBlock uniqueIdForceExportF rfl (by decide)
      (by decide) (by decide) rfl).1 rfl,
    (unique_id_default_export freshTestXBlock uniqueIdDefaultF rfl (by decide)
      (by decide) (by decide) rfl).2 rfl⟩

/-- C7: a `DateTime` field set to `None` exports as the empty string, and
set to 2014-04-01 02:03:04.567890 UTC it exports as the ISO text without
timezone suffix. -/
theorem datetime_serialization :
    lookupA "datetime" (add_xml_to_node (dateTimeBlock (Value.dt none))) = some "" ∧
    lookupA "datetime"
        (add_xml_to_node (dateTimeBlock (Value.dt (some ⟨2014, 4, 1, 2, 3, 4, 567890⟩)))) =
      some "2014-04-01T02:03:04.567890" := by
  decide

/-- C8: on a block over empty field data, no field is set: `is_set_on`
returns `False` for every field, whatever its default. -/
theorem fresh_block_no_field_set (b : Block) (hdata : b.field_data = []) (f : Field) :
    f.is_set_on b = false := by
  rw [Field.is_set_on, hdata, lookupA_nil]
  rfl

/-- C8 witness: on the fresh test block, neither an ordinary-default field
nor a `UNIQUE_ID`-default field is set. -/
theorem fresh_block_no_field_set_witness :
    fieldF.is_set_on freshTestXBlock = false ∧
    simpleDefaultF.is_set_on freshTestXBlock = false ∧
    uniqueIdDefaultF.is_set_on freshTestXBlock = false :=
  ⟨fresh_block_no_field_set freshTestXBlock rfl fieldF,
    fresh_block_no_field_set freshTestXBlock rfl simpleDefaultF,
    fresh_block_no_field_set freshTestXBlock rfl uniqueIdDefaultF⟩

/-- C9: every exported node carries the `xblock-family` attribute holding
the block class's `entry_point`, whatever fields are set. -/
theorem xblock_family_attr (b : Block) :
    lookupA "xblock-family" (add_xml_to_node b) = some b.entry_point := by
  rw [add_xml_to_node, lookupA_cons, if_pos rfl]

theorem charDigit_digitChar (d : Nat) (h : d < 10) : charDigit (digitChar d) = some d := by
  interval_cases d <;> rfl

theorem parse_toDigitsAux :
    ∀ fuel n rest, n ≤ fuel → parseNatAux (toDigitsAux fuel n rest) 0 = parseNatAux rest n := by
  intro fuel
  induction fuel with
  | zero =>
    intro n rest h
    have hn : n = 0 := Nat.le_zero.mp h
    subst hn
    rfl
  | succ fuel ih =>
    intro n rest h
    rw [toDigitsAux]
    by_cases hn : n < 10
    · rw [if_pos hn]
      simp only [parseNatAux, charDigit_digitChar n hn]
      norm_num
    · rw [if_neg hn]
      have h2 : n / 10 ≤ fuel := by omega
      rw [ih (n / 10) (digitChar (n % 10) :: rest) h2]
      simp only [parseNatAux, charDigit_digitChar (n % 10) (Nat.mod_lt n (by norm_num))]
      rw [Nat.div_add_mod]

theorem toDigitsAux_append :
    ∀ fuel n acc l, toDigitsAux fuel n acc ++ l = toDigitsAux fuel n (acc ++ l) := by
  intro fuel
  induction fuel with
  | zero => intro n acc l; rfl
  | succ fuel ih =>
    intro n acc l
    rw [toDigitsAux, toDigitsAux]
    by_cases hn : n < 10
    · rw [if_pos hn, if_pos hn, List.cons_append]
    · rw [if_neg hn, if_neg hn, ih, List.cons_append]

theorem toDigitsAux_length :
    ∀ fuel n acc w, n ≤ fuel → n < 10 ^ w → 0 < w →
      (toDigitsAux fuel n acc).length ≤ w + acc.length := by
  intro fuel
  induction fuel with
  | zero =>
    intro n acc w _ _ _
    exact Nat.le_add_left acc.length w
  | succ fuel ih =>
    intro n acc w hle hlt hw
    rw [toDigitsAux]
    by_cases hn : n < 10
    · rw [if_pos hn, List.length_cons]
      omega
    · rw [if_neg hn]
      match w, hw with
      | 1, _ => omega
      | w + 2, _ =>
        have hdiv : n / 10 < 10 ^ (w + 1) := by
          rw [Nat.div_lt_iff_lt_mul (by norm_num : (0 : ℕ) < 10)]
          calc n < 10 ^ (w + 2) := hlt
          _ = 10 ^ (w + 1) * 10 := by ring
        have := ih (n / 10) (digitChar (n % 10) :: acc) (w + 1) (by omega) hdiv (by omega)
        simp only [List.length_cons] at this
        omega

theorem natChars_length (n w : Nat) (hlt : n < 10 ^ w) (hw : 0 < w) :
    (natChars n).length ≤ w := by
  rw [natChars]
  by_cases hn : n = 0
  · rw [if_pos hn]
    exact Nat.zero_le w
  · rw [if_neg hn]
    have := toDigitsAux_length n n [] w (Nat.le_refl n) hlt hw
    simpa using this

theorem padNum_length (n w : Nat) (hlt : n < 10 ^ w) (hw : 0 < w) :
    (padNum w n).length = w := by
  have := natChars_length n w hlt hw
  rw [padNum, List.length_append, List.length_replicate]
  omega

theorem parseNatAux_replicate_zero :
    ∀ k l, parseNatAux (List.replicate k '0' ++ l) 0 = parseNatAux l 0 := by
  intro k
  induction k with
  | zero => intro l; rfl
  | succ k ih =>
    intro l
    rw [List.replicate_succ, List.cons_append]
    show parseNatAux (List.replicate k '0' ++ l) (10 * 0 + 0) = parseNatAux l 0
    rw [ih]

theorem parseNatAux_padNum (w n : Nat) (l : List Char) :
    parseNatAux (padNum w n ++ l) 0 = parseNatAux l n := by
  rw [padNum, List.append_assoc, parseNatAux_replicate_zero]
  rw [natChars]
  by_cases hn : n = 0
  · rw [if_pos hn, hn, List.nil_append]
  · rw [if_neg hn, toDigitsAux_append, List.nil_append]
    exact parse_toDigitsAux n n l (Nat.le_refl n)

theorem parseFixed_padNum (w n : Nat) (l : List Char) (hlt : n < 10 ^ w) (hw : 0 < w) :
    parseFixed w (padNum w n ++ l) = some (n, l) := by
  have hlen : (padNum w n).length = w := padNum_length n w hlt hw
  rw [parseFixed, if_pos (by rw [List.length_append, hlen]; omega)]
  rw [List.take_append_of_le_length (by omega), List.take_of_length_le (by omega)]
  have hp : parseNatAux (padNum w n) 0 = some n := by
    have := parseNatAux_padNum w n []
    rwa [List.append_nil] at this
  rw [hp, List.drop_append_of_le_length (by omega), List.drop_of_length_le (by omega),
    List.nil_append]

theorem expectChar_cons (c : Char) (l : List Char) : expectChar c (c :: l) = some l := by
  rw [expectChar, if_pos rfl]

/-- Parsing inverts formatting on every in-range datetime. -/
theorem parseDT_formatDT (d : DT) (hy : d.year < 10 ^ 4) (hmo : d.month < 10 ^ 2)
    (hda : d.day < 10 ^ 2) (hh : d.hour < 10 ^ 2) (hmi : d.minute < 10 ^ 2)
    (hs : d.second < 10 ^ 2) (hus : d.microsecond < 10 ^ 6) :
    parseDT (formatDT d) = some d := by
  obtain ⟨y, mo, da, h, mi, s, us⟩ := d
  dsimp only at hy hmo hda hh hmi hs hus
  rw [parseDT, formatDT]
  dsimp only
  simp only [List.append_assoc, List.cons_append]
  rw [parseFixed_padNum 4 y _ hy (by norm_num)]
  simp only [Option.bind_eq_bind, Option.some_bind, expectChar_cons]
  rw [parseFixed_padNum 2 mo _ hmo (by norm_num)]
  simp only [Option.some_bind, expectChar_cons]
  rw [parseFixed_padNum 2 da _ hda (by norm_num)]
  simp only [Option.some_bind, expectChar_cons]
  rw [parseFixed_padNum 2 h _ hh (by norm_num)]
  simp only [Option.some_bind, expectChar_cons]
  rw [parseFixed_padNum 2 mi _ hmi (by norm_num)]
  simp only [Option.some_bind, expectChar_cons]
  rw [parseFixed_padNum 2 s _ hs (by norm_num)]
  simp only [Option.some_bind, expectChar_cons]
  have h6 : parseFixed 6 (padNum 6 us) = some (us, []) := by
    have := parseFixed_padNum 6 us [] hus (by norm_num)
    rwa [List.append_nil] at this
  rw [h6]
  rfl

theorem formatDT_ne_nil (d : DT) : formatDT d ≠ [] := by
  rw [formatDT]
  intro hcontra
  rcases List.append_eq_nil.mp hcontra with ⟨-, h2⟩
  exact List.cons_ne_nil _ _ h2

/-- Round trip at the value level: reading back the attribute text of a
well-formed value recovers the value. -/
theorem valueFromString_valueToString (t : FieldType) (v : Value)
    (hwf : wellFormedValue t v) : valueFromString t (valueToString v) = some v := by
  match t, v, hwf with
  | FieldType.stringT, Value.str s, _ => rfl
  | FieldType.dateTimeT, Value.dt none, _ => rfl
  | FieldType.dateTimeT, Value.dt (some d), hwf =>
    obtain ⟨hy, hmo, hda, hh, hmi, hs, hus⟩ := hwf
    have hns : (⟨formatDT d⟩ : String) ≠ "" :=
      fun hcontra => formatDT_ne_nil d (congrArg String.data hcontra)
    rw [valueToString, valueFromString, if_neg hns]
    show (parseDT (formatDT d)).map (fun d => Value.dt (some d)) = some (Value.dt (some d))
    rw [parseDT_formatDT d hy hmo hda hh hmi hs hus]
    rfl

/-- C6: XML attribute round-tripping — every attribute `add_xml_to_node`
exports for a (well-formed) field value reads back, via the field's type,
to exactly the value that was exported. -/
theorem xml_attribute_roundtrip (b : Block) (f : Field)
    (hmem : f ∈ b.fields) (hnd : (b.fields.map Field.name).Nodup)
    (hname : f.name ≠ "xblock-family")
    (hexp : (f.is_set_on b || f.force_export) = true)
    (hwf : wellFormedValue f.ftype (f.valueOn b)) :
    ∃ s, lookupA f.name (add_xml_to_node b) = some s ∧
      valueFromString f.ftype s = some (f.valueOn b) := by
  refine ⟨valueToString (f.valueOn b), ?_, ?_⟩
  · rw [lookupA_add_xml b f hname hmem hnd, if_pos hexp]
  · exact valueFromString_valueToString f.ftype (f.valueOn b) hwf

/-- C6 witness: the datetime attribute of the test block round-trips to the
value that was set. -/
theorem xml_attribute_roundtrip_witness :
    ∃ s,
      lookupA "datetime"
          (add_xml_to_node (dateTimeBlock (Value.dt (some ⟨2014, 4, 1, 2, 3, 4, 567890⟩)))) =
        some s ∧
      valueFromString FieldType.dateTimeT s =
        some (Value.dt (some ⟨2014, 4, 1, 2, 3, 4, 567890⟩)) :=
  xml_attribute_roundtrip (dateTimeBlock (Value.dt (some ⟨2014, 4, 1, 2, 3, 4, 567890⟩)))
    datetimeF (by decide) (by decide) (by decide) (by decide)
    ⟨by norm_num, by norm_num, by norm_num, by norm_num, by norm_num, by norm_num, by norm_num⟩

theorem mkHClass_isSome (p : HClass) (b : Option Bool) :
    (mkHClass p b).children.isSome = (mkHClass p b).has_children := by
  cases h : b.getD p.has_children <;> simp [mkHClass, h]

theorem mkHClass_children_of_has (p : HClass) (b : Option Bool)
    (h : (mkHClass p b).has_children = true) :
    (mkHClass p b).children = some childrenField := by
  have h2 : b.getD p.has_children = true := h
  simp [mkHClass, h2]

/-- C3: in every subclass chain below `HierarchyMixin`, the class has a
`children` attribute iff its resolved `has_children` is true; when present
it is a `List` field with scope `Scope.children`; and a chain that never
sets `has_children` resolves it to `False` with no `children` attribute. -/
theorem hierarchy_children (chain : List (Option Bool)) :
    ((buildHClass chain).children.isSome = (buildHClass chain).has_children) ∧
    ((buildHClass chain).has_children = true →
      (buildHClass chain).children = some childrenField ∧
        childrenField.ftype = FieldType.listT ∧ childrenField.scope = Scope.children) ∧
    (chain.all Option.isNone = true →
      (buildHClass chain).has_children = false ∧ (buildHClass chain).children = none) := by
  induction chain with
  | nil =>
    refine ⟨rfl, ?_, fun _ => ⟨rfl, rfl⟩⟩
    intro h
    exact absurd h (by decide)
  | cons b rest ih =>
    refine ⟨mkHClass_isSome _ _, ?_, ?_⟩
    · intro h
      exact ⟨mkHClass_children_of_has _ _ h, rfl, rfl⟩
    · intro hall
      rw [List.all_cons, Bool.and_eq_true] at hall
      have hrest := ih.2.2 hall.2
      match b, hall.1 with
      | none, _ =>
        have h1 : (mkHClass (buildHClass rest) none).has_children = false := hrest.1
        refine ⟨h1, ?_⟩
        show (mkHClass (buildHClass rest) none).children = none
        have h2 := mkHClass_isSome (buildHClass rest) none
        rw [h1] at h2
        cases hch : (mkHClass (buildHClass rest) none).children with
        | none => rfl
        | some f =>
          rw [hch] at h2
          simp at h2

/-- C3 witness: `InheritedChildren` (built as `[none, some true]`) has the
`children` field; `WithoutChildren` (built as `[none]`) has
`has_children = False` and no `children` attribute. -/
theorem hierarchy_children_witness :
    (buildHClass [none, some true]).children = some childrenField ∧
    (buildHClass [none]).has_children = false ∧ (buildHClass [none]).children = none :=
  ⟨((hierarchy_children [none, some true]).2.1 (by decide)).1,
    (hierarchy_children [none]).2.2 (by decide)⟩

theorem lookupA_eq_none {α : Type} (n : String) (m : List (String × α))
    (h : n ∉ m.map Prod.fst) : lookupA n m = none := by
  induction m with
  | nil => rfl
  | cons kv rest ih =>
    rw [List.map_cons, List.mem_cons, not_or] at h
    rw [lookupA_cons, if_neg (fun he => h.1 he.symm), ih h.2]

theorem lookupA_isSome {α : Type} (n : String) (m : List (String × α))
    (h : n ∈ m.map Prod.fst) : (lookupA n m).isSome = true := by
  induction m with
  | nil => simp at h
  | cons kv rest ih =>
    rw [lookupA_cons]
    by_cases he : kv.1 = n
    · rw [if_pos he]
      rfl
    · rw [if_neg he]
      rw [List.map_cons, List.mem_cons] at h
      rcases h with h1 | h2
      · exact absurd h1.symm he
      · exact ih h2

theorem lookupA_filter_ne (m : List (String × Field)) (k n : String) (hne : k ≠ n) :
    lookupA n (m.filter (fun kv => kv.1 != k)) = lookupA n m := by
  induction m with
  | nil => rfl
  | cons kv rest ih =>
    by_cases h1 : kv.1 = k
    · rw [List.filter_cons_of_neg (by simp [h1]), ih, lookupA_cons,
        if_neg (fun he => hne (h1.symm.trans he))]
    · rw [List.filter_cons_of_pos (by simp [h1]), lookupA_cons, lookupA_cons]
      by_cases h2 : kv.1 = n
      · rw [if_pos h2, if_pos h2]
      · rw [if_neg h2, if_neg h2, ih]

theorem lookupA_insertA (m : List (String × Field)) (k : String) (v : Field) (n : String) :
    lookupA n (insertA m k v) = if k = n then some v else lookupA n m := by
  rw [insertA, lookupA_cons]
  by_cases h : k = n
  · rw [if_pos h, if_pos h]
  · rw [if_neg h, if_neg h, lookupA_filter_ne m k n h]

theorem lookupA_insertAll :
    ∀ (body m : List (String × Field)), (body.map Prod.fst).Nodup → ∀ n,
      lookupA n (insertAll m body) = orO (lookupA n body) (lookupA n m) := by
  intro body
  induction body with
  | nil => intro m _ n; rfl
  | cons kv rest ih =>
    intro m hnd n
    rw [List.map_cons, List.nodup_cons] at hnd
    show lookupA n (insertAll (insertA m kv.1 kv.2) rest) = _
    rw [ih _ hnd.2 n, lookupA_insertA, lookupA_cons]
    by_cases hk : kv.1 = n
    · rw [if_pos hk, if_pos hk]
      have hnone : lookupA n rest = none := lookupA_eq_none n rest (hk ▸ hnd.1)
      rw [hnone]
      rfl
    · rw [if_neg hk, if_neg hk]

/-- C4: in every class of a `ScopedStorageMixin` hierarchy (mixins and
subclasses at any depth), the class-level `fields` dictionary agrees with
class-attribute lookup on every name, and every field name declared
anywhere in the ancestry is mapped to the very field object (same
`Field.id`) reachable as the class attribute of that name. -/
theorem fields_dict_identity (c : PyClass)
    (hnd : ∀ body ∈ c.lin, (body.map Prod.fst).Nodup) (n : String) :
    lookupA n (fieldsDict c) = getattr c n ∧
    (n ∈ (c.lin.flatten).map Prod.fst →
      ∃ f, lookupA n (fieldsDict c) = some f ∧ getattr c n = some f) := by
  obtain ⟨lin⟩ := c
  dsimp only
  have key : ∀ lin2 : List (List (String × Field)),
      (∀ body ∈ lin2, (body.map Prod.fst).Nodup) →
      lookupA n (fieldsDict ⟨lin2⟩) = getattrFields n lin2 := by
    intro lin2 hnd2
    induction lin2 with
    | nil => rfl
    | cons body rest ih =>
      have hstep : fieldsDict ⟨body :: rest⟩ = insertAll (fieldsDict ⟨rest⟩) body := by
        show (body :: rest).reverse.foldl insertAll [] = _
        rw [List.reverse_cons, List.foldl_append]
        rfl
      rw [hstep, lookupA_insertAll body _ (hnd2 body (List.mem_cons_self _ _)) n,
        ih (fun b hb => hnd2 b (List.mem_cons_of_mem _ hb))]
      rw [getattrFields]
      cases lookupA n body <;> rfl
  refine ⟨key lin hnd, ?_⟩
  intro hmem
  have hsome : (getattrFields n lin).isSome = true := by
    clear hnd key
    induction lin with
    | nil => simp at hmem
    | cons body rest ih =>
      rw [List.flatten_cons, List.map_append, List.mem_append] at hmem
      rw [getattrFields]
      cases hl : lookupA n body with
      | some f => rfl
      | none =>
        rcases hmem with h1 | h2
        · have := lookupA_isSome n body h1
          rw [hl] at this
          exact absurd this (by decide)
        · exact ih h2
  obtain ⟨f, hf⟩ := Option.isSome_iff_exists.mp hsome
  exact ⟨f, by rw [key lin hnd]; exact hf, hf⟩

/-- C4 witness: on `MixinGrandchildClass`, the `fields` dict and attribute
lookup agree on `field_a`, and the mixed-in `field_c` is mapped to the very
field object declared on `FieldsMixin`. -/
theorem fields_dict_identity_witness :
    lookupA "field_a" (fieldsDict mixinGrandchildClassC) =
        getattr mixinGrandchildClassC "field_a" ∧
    lookupA "field_c" (fieldsDict mixinGrandchildClassC) = some field_c ∧
    getattr mixinGrandchildClassC "field_c" = some field_c := by
  refine ⟨(fields_dict_identity mixinGrandchildClassC (by decide) "field_a").1, ?_⟩
  obtain ⟨f, hf1, hf2⟩ :=
    (fields_dict_identity mixinGrandchildClassC (by decide) "field_c").2 (by decide)
  have hfc : f = field_c := by
    have := hf2
    rw [show getattr mixinGrandchildClassC "field_c" = some field_c from by decide] at this
    exact (Option.some.injEq _ _ ▸ this).symm
  exact ⟨hfc ▸ hf1, hfc ▸ hf2⟩

/-- C10: on every class using `IndexInfoMixin` that adds no indexing
behaviour of its own, `index_dictionary` returns the empty dict (falsy,
and a dict) on every instance. -/
theorem index_dictionary_empty (c : IndexClass) (h : c.index_override = none)
    (self : Block) :
    index_dictionary c self = [] ∧ (index_dictionary c self).isEmpty = true := by
  rw [index_dictionary, h]
  exact ⟨rfl, rfl⟩

/-- C10 witness: the test class returns the empty dict on a concrete block. -/
theorem index_dictionary_empty_witness :
    index_dictionary indexInfoMixinTesterC freshTestXBlock = [] ∧
    (index_dictionary indexInfoMixinTesterC freshTestXBlock).isEmpty = true :=
  index_dictionary_empty indexInfoMixinTesterC rfl freshTestXBlock

/-- C5: the sample plugin's setup declaration carries all four elements of
the registration: package name `thumbs-xblock`, version `0.1`, module
`thumbs`, and the block type `ThumbsBlock` registered under entry-point
name `thumbs` in the loader group `xblock.v1`. -/
theorem thumbs_setup_registration :
    thumbs_setup.name = "thumbs-xblock" ∧
    thumbs_setup.version = "0.1" ∧
    thumbs_setup.py_modules = ["thumbs"] ∧
    lookupA "xblock.v1" thumbs_setup.entry_points =
      some [⟨"thumbs", "thumbs.thumbs", "ThumbsBlock"⟩] := by
  refine ⟨rfl, rfl, rfl, ?_⟩
  decide

end XBlockSpec
